import Mathlib

/-!
Verification of the festival-impact analytics engine of the 112-Analytics
dashboard against its natural-language specification.

The Python sources are shallowly embedded:
* calendar dates are integers (day numbers); the bijection between a date and
  its `YYYY-MM-DD` string key lets us key festival dictionaries by the date
  itself;
* pandas Series/DataFrames become lists; `groupby(...).size()` becomes
  "sorted distinct keys with multiplicities"; means and ratios are exact
  rationals (the Python floats carry exact values on these small integer
  inputs);
* Python dicts become insertion-ordered association lists with
  replace-in-place update, matching CPython semantics;
* Python `round` (banker's rounding, also used by `round(x, n)`) is modelled
  exactly on rationals.
-/

/-! ### Generic helpers -/

/-- Insert `x` into an ascending duplicate-free list, keeping it ascending and
duplicate-free.  Used to model the sorted distinct index of a pandas groupby. -/
def insertAsc {α : Type} [LinearOrder α] (x : α) : List α → List α
  | [] => [x]
  | y :: ys =>
    if x < y then x :: y :: ys
    else if x = y then y :: ys
    else y :: insertAsc x ys

/-- Sorted list of the distinct elements of `xs` (the index of
`xs.groupby(...)`, or pandas `nunique` support). -/
def distinctSorted {α : Type} [LinearOrder α] (xs : List α) : List α :=
  xs.foldr insertAsc []

theorem mem_insertAsc {α : Type} [LinearOrder α] (x a : α) (l : List α) :
    a ∈ insertAsc x l ↔ a = x ∨ a ∈ l := by
  induction l with
  | nil => simp [insertAsc]
  | cons y ys ih =>
    simp only [insertAsc]
    split
    · simp [List.mem_cons]
    · split
      · next h1 h2 =>
        subst h2
        simp only [List.mem_cons]
        tauto
      · simp only [List.mem_cons, ih]
        tauto

theorem mem_distinctSorted {α : Type} [LinearOrder α] (xs : List α) (a : α) :
    a ∈ distinctSorted xs ↔ a ∈ xs := by
  induction xs with
  | nil => simp [distinctSorted]
  | cons x l ih =>
    simp only [distinctSorted, List.foldr_cons] at *
    rw [mem_insertAsc, ih, List.mem_cons]

theorem distinctSorted_ne_nil {α : Type} [LinearOrder α] (xs : List α)
    (h : xs ≠ []) : distinctSorted xs ≠ [] := by
  match xs, h with
  | x :: l, _ =>
    intro hnil
    have : x ∈ distinctSorted (x :: l) := by
      rw [mem_distinctSorted]; exact List.mem_cons_self x l
    rw [hnil] at this
    exact List.not_mem_nil x this

/-- First-match association-list lookup: the semantics of reading a Python
dict (keys are unique in an actual dict, so first match is the match). -/
def lookupD {κ β : Type} [DecidableEq κ] (k : κ) : List (κ × β) → Option β
  | [] => none
  | (k', v) :: rest => if k = k' then some v else lookupD k rest

/-- Python `d[k] = v`: replace in place if the key is present, else append
(CPython dicts preserve insertion order and keep the position on update). -/
def dictInsert {κ β : Type} [DecidableEq κ] (k : κ) (v : β) :
    List (κ × β) → List (κ × β)
  | [] => [(k, v)]
  | (k', v') :: rest =>
    if k = k' then (k, v) :: rest else (k', v') :: dictInsert k v rest

theorem lookupD_dictInsert_self {κ β : Type} [DecidableEq κ] (k : κ) (v : β)
    (m : List (κ × β)) : lookupD k (dictInsert k v m) = some v := by
  induction m with
  | nil => simp [dictInsert, lookupD]
  | cons p rest ih =>
    by_cases h : k = p.1
    · simp [dictInsert, lookupD, h]
    · simp [dictInsert, lookupD, h, ih]

theorem lookupD_dictInsert_ne {κ β : Type} [DecidableEq κ] (k j : κ) (v : β)
    (m : List (κ × β)) (hne : j ≠ k) :
    lookupD j (dictInsert k v m) = lookupD j m := by
  induction m with
  | nil => simp [dictInsert, lookupD, hne]
  | cons p rest ih =>
    by_cases h : k = p.1
    · subst h
      simp [dictInsert, lookupD, hne]
    · by_cases h2 : j = p.1
      · simp [dictInsert, lookupD, h, h2]
      · simp [dictInsert, lookupD, h, h2, ih]

/-- Python's built-in `round` on an exact rational value: round half to even
(banker's rounding), returning an integer. -/
def pythonRound (q : ℚ) : ℤ :=
  let f : ℤ := ⌊q⌋
  let r : ℚ := q - f
  if r < 1 / 2 then f
  else if 1 / 2 < r then f + 1
  else if f % 2 = 0 then f else f + 1

/-- Python `round(x, 2)` on an exact rational value. -/
def pythonRound2 (q : ℚ) : ℚ :=
  (pythonRound (q * 100) : ℚ) / 100

/-! ### Data model

`Fest` is one value of the festival dictionary built by
`ICSCalendarIntegration` (`modules/ics_calendar_integration.py`): the dict is
keyed by the `YYYY-MM-DD` string of the `date` field, so we key the
association list by the date itself. -/

structure Fest where
  name : String
  date : ℤ
  description : String
  deriving DecidableEq, Repr

/-- One entry of the `festival_analysis` list built by
`filter_festivals_by_crime_impact` (unrounded working values; the copies
stored into the returned dict are 2-decimal-rounded displays of these). -/
structure Assessment where
  avg_calls_during : ℚ
  max_calls_during : ℕ
  impact_ratio : ℚ
  max_impact_ratio : ℚ
  deriving DecidableEq, Repr

/-! ### ImpactClassifier: `filter_festivals_by_crime_impact`
(`modules/ics_calendar_integration.py`, lines 376-490)

The call data enters as the list of calendar dates of the calls (the
`call_ts` column after `.dt.date`); `daily_calls = groupby('date').size()`
is `fun d => dates.count d` on the index `distinctSorted dates`. -/

/-- Lines 397-402: keep only festivals whose date lies in
`[daily_calls.index.min(), daily_calls.index.max()]`; an empty dataset has
no index, the function has already returned `{}` (modelled by `[]`). -/
def inRangeOf (festivals : List (ℤ × Fest)) (dates : List ℤ) :
    List (ℤ × Fest) :=
  match dates.min?, dates.max? with
  | some lo, some hi =>
    festivals.filter (fun kv => decide (lo ≤ kv.2.date) && decide (kv.2.date ≤ hi))
  | _, _ => []

/-- Lines 414-420: `d` is within ±1 day of some in-range festival.  (The code
also clips the marked days to the data range, which cannot matter: the days
subtracted from `all_dates` all lie in the range already.) -/
def isAdjacent (inR : List (ℤ × Fest)) (d : ℤ) : Bool :=
  inR.any (fun kv => decide (kv.2.date - 1 ≤ d) && decide (d ≤ kv.2.date + 1))

/-- Sum of the daily counts of `dates` over the index set `days`
(`daily_calls.loc[list(days)].sum()`). -/
def daySum (dates : List ℤ) (days : List ℤ) : ℕ :=
  (days.map (fun d => dates.count d)).sum

/-- Lines 410-427: mean daily calls over non-festival days; if every observed
day is festival-adjacent, mean over all observed days instead. -/
def baselineOf (dates : List ℤ) (inR : List (ℤ × Fest)) : ℚ :=
  if ((distinctSorted dates).filter (fun d => !(isAdjacent inR d))).isEmpty then
    (daySum dates (distinctSorted dates) : ℚ) / ((distinctSorted dates).length : ℚ)
  else
    (daySum dates ((distinctSorted dates).filter (fun d => !(isAdjacent inR d))) : ℚ) /
      (((distinctSorted dates).filter (fun d => !(isAdjacent inR d))).length : ℚ)

/-- Mean of a list of counts as a pandas `Series.mean()` (exact rational). -/
def meanQ (l : List ℕ) : ℚ :=
  (l.map (fun n => (n : ℚ))).sum / (l.length : ℚ)

/-- Lines 441-444: the daily counts on `date-1, date, date+1` that exist in
the dataset (`period_calls`; missing days contribute nothing). -/
def periodCalls (dates : List ℤ) (f : Fest) : List ℕ :=
  [(-1 : ℤ), 0, 1].filterMap
    (fun δ => if (f.date + δ) ∈ distinctSorted dates then
        some (dates.count (f.date + δ))
      else none)

/-- Lines 446-463: skip the festival if `period_calls` is empty (`none`),
otherwise produce the analysis record with the divide-by-zero-guarded
ratios (`impact_ratio = avg/baseline if baseline > 0 else 1`). -/
def assessOne (dates : List ℤ) (baseline : ℚ) (f : Fest) : Option Assessment :=
  match periodCalls dates f with
  | [] => none
  | c :: cs =>
    some { avg_calls_during := meanQ (c :: cs)
         , max_calls_during := cs.foldl max c
         , impact_ratio :=
             if 0 < baseline then meanQ (c :: cs) / baseline else 1
         , max_impact_ratio :=
             if 0 < baseline then ((cs.foldl max c : ℕ) : ℚ) / baseline else 1 }

/-- Lines 465-480: an assessed festival enters `impactful_festivals` iff
`impact_ratio >= impact_threshold and avg_festival_calls >=
min_calls_threshold`.  (The code stores 2-decimal-rounded display copies of
the analysis values into the dict; we return the analysis record itself.) -/
def includeStep (dates : List ℤ) (b impact_threshold min_calls_threshold : ℚ)
    (kv : ℤ × Fest) : Option (ℤ × Fest × Assessment) :=
  match assessOne dates b kv.2 with
  | none => none
  | some a =>
    if impact_threshold ≤ a.impact_ratio ∧
       min_calls_threshold ≤ a.avg_calls_during then
      some (kv.1, kv.2, a)
    else none

/-- `filter_festivals_by_crime_impact(festivals, call_data, impact_threshold,
min_calls_threshold)`: the returned `impactful_festivals` dict, as the list of
(date key, festival record, its analysis).  An empty dataset yields `[]`
(the code's early `return {}`), as does an empty in-range set. -/
def filter_festivals_by_crime_impact (festivals : List (ℤ × Fest))
    (dates : List ℤ) (impact_threshold min_calls_threshold : ℚ) :
    List (ℤ × Fest × Assessment) :=
  (inRangeOf festivals dates).filterMap
    (includeStep dates (baselineOf dates (inRangeOf festivals dates))
      impact_threshold min_calls_threshold)

/-- State-passing view of `filter_festivals_by_crime_impact`: line 389 copies
`call_data` and all mutation (`call_data['date'] = ...`) happens on the copy,
so the caller's dataset comes back unchanged. -/
def filter_festivals_by_crime_impact_st (festivals : List (ℤ × Fest))
    (dates : List ℤ) (impact_threshold min_calls_threshold : ℚ) :
    List (ℤ × Fest × Assessment) × List ℤ :=
  (filter_festivals_by_crime_impact festivals dates impact_threshold
    min_calls_threshold, dates)

/-! ### Theorems for the impact classifier (claims about
`filter_festivals_by_crime_impact`) -/

theorem includeStep_eq_some (dates : List ℤ) (b θ m : ℚ) (k : ℤ) (f : Fest)
    (out : ℤ × Fest × Assessment) :
    includeStep dates b θ m (k, f) = some out ↔
      ∃ a, assessOne dates b f = some a ∧
        (θ ≤ a.impact_ratio ∧ m ≤ a.avg_calls_during) ∧ out = (k, f, a) := by
  unfold includeStep
  cases h : assessOne dates b f with
  | none => simp
  | some a =>
    dsimp only
    by_cases hc : θ ≤ a.impact_ratio ∧ m ≤ a.avg_calls_during
    · rw [if_pos hc]
      constructor
      · intro he
        exact ⟨a, rfl, hc, (Option.some.inj he).symm⟩
      · rintro ⟨a', ha', hc', rfl⟩
        cases Option.some.inj ha'
        rfl
    · rw [if_neg hc]
      constructor
      · intro he
        exact absurd he (by simp)
      · rintro ⟨a', ha', hc', rfl⟩
        cases Option.some.inj ha'
        exact absurd hc' hc


/-- C1: a festival candidate that the impact classifier assessed (its
`period_calls` is non-empty, i.e. `assessOne` returns an analysis record) is
included in the returned significant set if and only if its impact ratio is
at least `impact_threshold` and its average calls during the festival window
are at least `min_calls_threshold`; the ratio condition alone is not
sufficient — the conjunction is required. -/
theorem impact_inclusion_iff (festivals : List (ℤ × Fest)) (dates : List ℤ)
    (impact_threshold min_calls_threshold : ℚ) (k : ℤ) (f : Fest)
    (a : Assessment) (hk : (k, f) ∈ inRangeOf festivals dates) :
    (k, f, a) ∈ filter_festivals_by_crime_impact festivals dates
        impact_threshold min_calls_threshold ↔
      (assessOne dates (baselineOf dates (inRangeOf festivals dates)) f = some a ∧
       impact_threshold ≤ a.impact_ratio ∧
       min_calls_threshold ≤ a.avg_calls_during) := by
  unfold filter_festivals_by_crime_impact
  rw [List.mem_filterMap]
  constructor
  · rintro ⟨⟨k', f'⟩, hmem, heq⟩
    rw [includeStep_eq_some] at heq
    obtain ⟨a', ha', hc', hout⟩ := heq
    have h1 : k = k' ∧ f = f' ∧ a = a' := by
      simpa [Prod.ext_iff] using hout
    obtain ⟨rfl, rfl, rfl⟩ := h1
    exact ⟨ha', hc'⟩
  · rintro ⟨h1, h2, h3⟩
    refine ⟨(k, f), hk, ?_⟩
    rw [includeStep_eq_some]
    exact ⟨a, h1, ⟨h2, h3⟩, rfl⟩

/-- Witness for C1: one festival on day 5, dataset with 1 call on day 0 and
3 calls on day 5; baseline 1, ratio 3 ≥ 1.3, avg 3 ≥ 3, so it is included. -/
theorem impact_inclusion_iff_witness :
    ((5 : ℤ), (⟨"F", 5, ""⟩ : Fest), (⟨3, 3, 3, 3⟩ : Assessment)) ∈
      filter_festivals_by_crime_impact [((5 : ℤ), ⟨"F", 5, ""⟩)] [0, 5, 5, 5]
        (13 / 10) 3 := by
  have hb : baselineOf [0, 5, 5, 5]
      (inRangeOf [((5 : ℤ), ⟨"F", 5, ""⟩)] [0, 5, 5, 5]) = 1 := by
    have hfilter : ((distinctSorted ([0, 5, 5, 5] : List ℤ)).filter
        (fun d => !(isAdjacent (inRangeOf [((5 : ℤ), ⟨"F", 5, ""⟩)]
          [0, 5, 5, 5]) d))) = [0] := by decide
    have hsum : daySum [0, 5, 5, 5] [0] = 1 := by decide
    rw [baselineOf, hfilter, hsum]
    norm_num
  have ha : assessOne [0, 5, 5, 5]
      (baselineOf [0, 5, 5, 5] (inRangeOf [((5 : ℤ), ⟨"F", 5, ""⟩)] [0, 5, 5, 5]))
      ⟨"F", 5, ""⟩ = some ⟨3, 3, 3, 3⟩ := by
    have hp : periodCalls [0, 5, 5, 5] ⟨"F", 5, ""⟩ = [3] := by decide
    rw [assessOne, hb, hp]
    norm_num [meanQ]
  exact (impact_inclusion_iff [((5 : ℤ), ⟨"F", 5, ""⟩)] [0, 5, 5, 5]
      (13 / 10) 3 5 ⟨"F", 5, ""⟩ ⟨3, 3, 3, 3⟩ (by decide)).mpr
    ⟨ha, by norm_num, by norm_num⟩

/-- C2: for every assessed festival candidate, if the computed baseline is
positive then `impact_ratio` is exactly `avg_calls_during / baseline`, and if
the baseline is zero or not positive then `impact_ratio` is exactly 1 — the
value is a total rational, never infinite and never a division error. -/
theorem impact_ratio_guard (festivals : List (ℤ × Fest)) (dates : List ℤ)
    (f : Fest) (a : Assessment)
    (h : assessOne dates (baselineOf dates (inRangeOf festivals dates)) f =
      some a) :
    (0 < baselineOf dates (inRangeOf festivals dates) →
      a.impact_ratio =
        a.avg_calls_during / baselineOf dates (inRangeOf festivals dates)) ∧
    (baselineOf dates (inRangeOf festivals dates) ≤ 0 →
      a.impact_ratio = 1) := by
  set b := baselineOf dates (inRangeOf festivals dates) with hb
  unfold assessOne at h
  cases hp : periodCalls dates f with
  | nil => rw [hp] at h; exact absurd h (by simp)
  | cons c cs =>
    rw [hp] at h
    have ha := Option.some.inj h
    constructor
    · intro hpos
      rw [← ha]
      dsimp only
      rw [if_pos hpos]
    · intro hnonpos
      rw [← ha]
      dsimp only
      rw [if_neg (not_lt.mpr hnonpos)]

/-- Witness for C2: with the concrete dataset of the C1 witness, the baseline
is 1 > 0 and the recorded ratio 3 equals avg 3 divided by baseline 1. -/
theorem impact_ratio_guard_witness :
    ((⟨3, 3, 3, 3⟩ : Assessment).impact_ratio =
      (⟨3, 3, 3, 3⟩ : Assessment).avg_calls_during /
        baselineOf [0, 5, 5, 5]
          (inRangeOf [((5 : ℤ), ⟨"F", 5, ""⟩)] [0, 5, 5, 5])) := by
  have hb : baselineOf [0, 5, 5, 5]
      (inRangeOf [((5 : ℤ), ⟨"F", 5, ""⟩)] [0, 5, 5, 5]) = 1 := by
    have hfilter : ((distinctSorted ([0, 5, 5, 5] : List ℤ)).filter
        (fun d => !(isAdjacent (inRangeOf [((5 : ℤ), ⟨"F", 5, ""⟩)]
          [0, 5, 5, 5]) d))) = [0] := by decide
    have hsum : daySum [0, 5, 5, 5] [0] = 1 := by decide
    rw [baselineOf, hfilter, hsum]
    norm_num
  have ha : assessOne [0, 5, 5, 5]
      (baselineOf [0, 5, 5, 5] (inRangeOf [((5 : ℤ), ⟨"F", 5, ""⟩)] [0, 5, 5, 5]))
      ⟨"F", 5, ""⟩ = some ⟨3, 3, 3, 3⟩ := by
    have hp : periodCalls [0, 5, 5, 5] ⟨"F", 5, ""⟩ = [3] := by decide
    rw [assessOne, hb, hp]
    norm_num [meanQ]
  exact (impact_ratio_guard [((5 : ℤ), ⟨"F", 5, ""⟩)] [0, 5, 5, 5]
    ⟨"F", 5, ""⟩ ⟨3, 3, 3, 3⟩ ha).1 (by rw [hb]; norm_num)

/-- C3: if every observed day of a non-empty dataset is festival-adjacent
(within ±1 day of some in-range candidate festival), the baseline is the
arithmetic mean of the daily counts over all observed days — the computation
degrades gracefully instead of failing. -/
theorem baseline_all_days_fallback (festivals : List (ℤ × Fest))
    (dates : List ℤ) (_hne : dates ≠ [])
    (hall : ∀ d ∈ distinctSorted dates,
      isAdjacent (inRangeOf festivals dates) d = true) :
    baselineOf dates (inRangeOf festivals dates) =
      (daySum dates (distinctSorted dates) : ℚ) /
        ((distinctSorted dates).length : ℚ) := by
  have hnil : (distinctSorted dates).filter
      (fun d => !(isAdjacent (inRangeOf festivals dates) d)) = [] := by
    rw [List.filter_eq_nil_iff]
    intro d hd
    rw [hall d hd]
    simp
  rw [baselineOf, hnil]
  rfl

/-- Witness for C3: dataset spanning days 0 and 1 with a festival on day 0:
both observed days are adjacent, and the baseline is the all-days mean. -/
theorem baseline_all_days_fallback_witness :
    baselineOf [0, 1] (inRangeOf [((0 : ℤ), ⟨"F0", 0, ""⟩)] [0, 1]) =
      (daySum [0, 1] (distinctSorted [0, 1]) : ℚ) /
        ((distinctSorted [0, 1]).length : ℚ) :=
  baseline_all_days_fallback [((0 : ℤ), ⟨"F0", 0, ""⟩)] [0, 1]
    (by decide) (by decide)

/-! ### CalendarSource: `_is_likely_festival`
(`modules/ics_calendar_integration.py`, lines 176-209)

Python string operations are embedded on `List Char`: `.lower()` is an
ASCII-case map (all keywords are ASCII), `.strip()` trims whitespace at both
ends, and `a in b` is contiguous-substring containment. -/

/-- ASCII lower-casing of one character (`str.lower` on the ASCII range). -/
def charLower (c : Char) : Char :=
  if 'A' ≤ c ∧ c ≤ 'Z' then Char.ofNat (c.toNat + 32) else c

/-- Drop whitespace from both ends (`str.strip`). -/
def trimChars (s : List Char) : List Char :=
  ((s.dropWhile Char.isWhitespace).reverse.dropWhile Char.isWhitespace).reverse

/-- Does `h` start with `n`? -/
def startsWithSeq : List Char → List Char → Bool
  | _, [] => true
  | [], _ :: _ => false
  | a :: as, b :: bs => a == b && startsWithSeq as bs

/-- Python `n in h`: `n` occurs as a contiguous subsequence of `h`. -/
def containsSeq : List Char → List Char → Bool
  | [], n => n.isEmpty
  | a :: as, n => startsWithSeq (a :: as) n || containsSeq as n

/-- `event_name.lower().strip()` (line 178). -/
def prepName (event_name : String) : List Char :=
  trimChars (event_name.data.map charLower)

/-- Lines 181-187: `excluded_keywords`. -/
def excluded_keywords : List String :=
  [ "independence day", "republic day", "gandhi jayanti"
  , "birthday", "death anniversary", "national", "international"
  , "world", "day of", "awareness", "week", "month", "memorial"
  , "remembrance", "solidarity", "earth day", "environment"
  , "health", "safety", "awareness", "conference", "meeting" ]

/-- Lines 194-207: `festival_keywords`. -/
def festival_keywords : List String :=
  [ "diwali", "deepavali", "holi", "dussehra", "dasara", "vijayadashami"
  , "ganesh", "ganapati", "navratri", "durga", "kali", "lakshmi"
  , "karva", "karwa", "raksha", "rakhi", "janmashtami", "krishna"
  , "ram navami", "hanuman", "shivratri", "makar sankranti", "pongal"
  , "baisakhi", "vaisakhi", "onam", "vishu", "ugadi", "gudi padwa"
  , "akshaya tritiya", "teej", "ahoi ashtami", "dhanteras", "govardhan"
  , "bhai dooj", "chhath", "kartikeya", "ganga dussehra", "rath yatra"
  , "guru nanak", "guru gobind", "vasant panchami", "magh purnima"
  , "maharana pratap", "chhatrapati", "festival", "celebration"
  , "eid", "ramadan", "muharram", "christmas", "good friday", "easter"
  , "pooja", "puja", "jayanti", "vratam", "vrata", "chaturthi"
  , "purnima", "amavasya", "ekadashi", "sankranti", "vivah" ]

/-- `_is_likely_festival(event_name)`: reject if the lowercased stripped
title contains any excluded keyword (checked first, lines 189-191); accept
iff it contains some festival keyword otherwise (line 209). -/
def is_likely_festival (event_name : String) : Bool :=
  if excluded_keywords.any (fun kw => containsSeq (prepName event_name) kw.data) then
    false
  else
    festival_keywords.any (fun kw => containsSeq (prepName event_name) kw.data)

/-- C6: the blocklist is checked first and wins — any title whose lowercased
form contains a blocklisted term is rejected, whatever else it contains; in
particular "Diwali" alone is accepted while "Diwali Awareness Day" is
rejected (even though it contains the allowlisted keyword "diwali"). -/
theorem blocklist_wins :
    (∀ title : String,
      excluded_keywords.any (fun kw => containsSeq (prepName title) kw.data) = true →
        is_likely_festival title = false) ∧
    is_likely_festival "Diwali" = true ∧
    is_likely_festival "Diwali Awareness Day" = false ∧
    festival_keywords.any
      (fun kw => containsSeq (prepName "Diwali Awareness Day") kw.data) = true := by
  refine ⟨?_, by decide, by decide, by decide⟩
  intro title h
  rw [is_likely_festival, if_pos h]

/-- Witness for C6: "Diwali Awareness Day" contains the blocklisted term
"awareness", and the filter rejects it. -/
theorem blocklist_wins_witness :
    excluded_keywords.any
      (fun kw => containsSeq (prepName "Diwali Awareness Day") kw.data) = true ∧
    is_likely_festival "Diwali Awareness Day" = false :=
  ⟨by decide, blocklist_wins.1 "Diwali Awareness Day" (by decide)⟩

/-! ### CalendarSource: `parse_ics_content` and the cross-feed merge
(`modules/ics_calendar_integration.py`, lines 61-124 and 139-174)

The icalendar library walk is external: its output, the sequence of VEVENTs
of one feed, is the input here (`summary`, optional start date, and
`description`, with the date already extracted from `dtstart`). -/

structure IcsEvent where
  summary : String
  dtstart : Option ℤ
  description : String
  deriving DecidableEq, Repr

/-- Lines 147-169, one VEVENT: the record stored for an event that has a
start date, a non-empty summary, and passes the festival-likeness filter
(`none` when the event is dropped). -/
def eventRecord (e : IcsEvent) : Option (ℤ × Fest) :=
  match e.dtstart with
  | none => none
  | some d =>
    if (e.summary != "") && is_likely_festival e.summary then
      some (d, ⟨(trimChars e.summary.data).asString, d,
        (trimChars e.description.data).asString⟩)
    else none

/-- Lines 147-169: `festivals[date_str] = {...}` — an unconditional dict
assignment, so a later event on the same date overwrites an earlier one. -/
def parseStep (m : List (ℤ × Fest)) (e : IcsEvent) : List (ℤ × Fest) :=
  match eventRecord e with
  | none => m
  | some kv => dictInsert kv.1 kv.2 m

/-- `parse_ics_content`: fold the feed's events into a date-keyed dict. -/
def parse_ics_content (events : List IcsEvent) : List (ℤ × Fest) :=
  events.foldl parseStep []

/-- Lines 97-100: on a duplicate date, "prefer more detailed entry" — the
incoming record wins only when its description is strictly longer. -/
def pick (cur new : Fest) : Fest :=
  if cur.description.length < new.description.length then new else cur

/-- Lines 93-100, one entry of one source's dict merged into
`all_festivals`. -/
def mergeStep (m : List (ℤ × Fest)) (kv : ℤ × Fest) : List (ℤ × Fest) :=
  match lookupD kv.1 m with
  | none => dictInsert kv.1 kv.2 m
  | some existing =>
    if existing.description.length < kv.2.description.length then
      dictInsert kv.1 kv.2 m
    else m

/-- Lines 93-100: merge one fetched source into the accumulated dict. -/
def mergeSource (acc : List (ℤ × Fest)) (src : List (ℤ × Fest)) :
    List (ℤ × Fest) :=
  src.foldl mergeStep acc

/-- Lines 66-115 (`_fetch_and_store_comprehensive_festivals`, successful
fetches): successively merge each source's parsed dict into `all_festivals`,
starting from the empty dict. -/
def merge_all_festivals (sources : List (List (ℤ × Fest))) :
    List (ℤ × Fest) :=
  sources.foldl mergeSource []

/-- Left fold of the keep-if-strictly-longer combine over a stream of
records: the "longest description wins, first seen wins ties" policy. -/
def pickFold (o : Option Fest) (l : List Fest) : Option Fest :=
  l.foldl (fun o w => match o with | none => some w | some c => some (pick c w)) o

/-- Left fold of the overwrite combine: the "last seen wins" policy. -/
def lastFold (o : Option Fest) (l : List Fest) : Option Fest :=
  l.foldl (fun _o w => some w) o

/-- All records carrying date key `k`, in processing order, across the
concatenated sources. -/
def occsOf (k : ℤ) (sources : List (List (ℤ × Fest))) : List Fest :=
  (((sources.foldr (· ++ ·) []).filter (fun kv => kv.1 == k)).map Prod.snd)

theorem lookupD_mergeStep (m : List (ℤ × Fest)) (kv : ℤ × Fest) (k : ℤ) :
    lookupD k (mergeStep m kv) =
      if kv.1 = k then
        some (match lookupD k m with | none => kv.2 | some c => pick c kv.2)
      else lookupD k m := by
  unfold mergeStep
  by_cases hk : kv.1 = k
  · subst hk
    rw [if_pos rfl]
    cases h : lookupD kv.1 m with
    | none =>
      dsimp only
      rw [lookupD_dictInsert_self]
    | some c =>
      dsimp only
      by_cases hlen : c.description.length < kv.2.description.length
      · rw [if_pos hlen, lookupD_dictInsert_self, pick, if_pos hlen]
      · rw [if_neg hlen, h, pick, if_neg hlen]
  · rw [if_neg hk]
    cases h : lookupD kv.1 m with
    | none =>
      dsimp only
      exact lookupD_dictInsert_ne _ _ _ _ (fun hc => hk hc.symm)
    | some c =>
      dsimp only
      by_cases hlen : c.description.length < kv.2.description.length
      · rw [if_pos hlen]
        exact lookupD_dictInsert_ne _ _ _ _ (fun hc => hk hc.symm)
      · rw [if_neg hlen]

theorem lookupD_foldl_mergeStep (L : List (ℤ × Fest))
    (acc : List (ℤ × Fest)) (k : ℤ) :
    lookupD k (L.foldl mergeStep acc) =
      pickFold (lookupD k acc) ((L.filter (fun kv => kv.1 == k)).map Prod.snd) := by
  induction L generalizing acc with
  | nil => rfl
  | cons kv L ih =>
    rw [List.foldl_cons, ih]
    by_cases hk : kv.1 = k
    · have hfilter : ((kv :: L).filter (fun kv => kv.1 == k)) =
          kv :: (L.filter (fun kv => kv.1 == k)) := by
        simp [List.filter_cons, hk]
      rw [hfilter, List.map_cons, lookupD_mergeStep, if_pos hk]
      cases lookupD k acc with
      | none => rfl
      | some c => rfl
    · have hfilter : ((kv :: L).filter (fun kv => kv.1 == k)) =
          L.filter (fun kv => kv.1 == k) := by
        simp [List.filter_cons, hk]
      rw [hfilter, lookupD_mergeStep, if_neg hk]

theorem foldl_mergeSource_eq (ss : List (List (ℤ × Fest)))
    (acc : List (ℤ × Fest)) :
    ss.foldl mergeSource acc = (ss.foldr (· ++ ·) []).foldl mergeStep acc := by
  induction ss generalizing acc with
  | nil => rfl
  | cons s ss ih =>
    rw [List.foldl_cons, ih, List.foldr_cons, List.foldl_append]
    rfl

theorem lookupD_parseStep (m : List (ℤ × Fest)) (e : IcsEvent) (k : ℤ) :
    lookupD k (parseStep m e) =
      match eventRecord e with
      | none => lookupD k m
      | some kv => if kv.1 = k then some kv.2 else lookupD k m := by
  unfold parseStep
  cases he : eventRecord e with
  | none => rfl
  | some kv =>
    dsimp only
    by_cases hk : kv.1 = k
    · subst hk
      rw [if_pos rfl, lookupD_dictInsert_self]
    · rw [if_neg hk, lookupD_dictInsert_ne _ _ _ _ (fun hc => hk hc.symm)]

theorem lookupD_foldl_parseStep (L : List IcsEvent)
    (acc : List (ℤ × Fest)) (k : ℤ) :
    lookupD k (L.foldl parseStep acc) =
      lastFold (lookupD k acc)
        (((L.filterMap eventRecord).filter (fun kv => kv.1 == k)).map Prod.snd) := by
  induction L generalizing acc with
  | nil => rfl
  | cons e L ih =>
    rw [List.foldl_cons, ih, List.filterMap_cons]
    cases he : eventRecord e with
    | none =>
      rw [lookupD_parseStep, he]
    | some kv =>
      rw [lookupD_parseStep, he]
      dsimp only
      by_cases hk : kv.1 = k
      · have hfilter : ((kv :: L.filterMap eventRecord).filter
            (fun kv => kv.1 == k)) =
            kv :: ((L.filterMap eventRecord).filter (fun kv => kv.1 == k)) := by
          simp [List.filter_cons, hk]
        rw [if_pos hk, hfilter, List.map_cons]
        rfl
      · have hfilter : ((kv :: L.filterMap eventRecord).filter
            (fun kv => kv.1 == k)) =
            (L.filterMap eventRecord).filter (fun kv => kv.1 == k) := by
          simp [List.filter_cons, hk]
        rw [if_neg hk, hfilter]

theorem mem_keys_dictInsert {κ β : Type} [DecidableEq κ] (k j : κ) (v : β)
    (m : List (κ × β)) :
    j ∈ (dictInsert k v m).map Prod.fst ↔ j = k ∨ j ∈ m.map Prod.fst := by
  induction m with
  | nil => simp [dictInsert]
  | cons p rest ih =>
    by_cases h : k = p.1
    · subst h
      simp [dictInsert]
    · simp only [dictInsert, if_neg h, List.map_cons, List.mem_cons, ih]
      tauto

theorem nodup_keys_dictInsert {κ β : Type} [DecidableEq κ] (k : κ) (v : β)
    (m : List (κ × β)) (h : (m.map Prod.fst).Nodup) :
    ((dictInsert k v m).map Prod.fst).Nodup := by
  induction m with
  | nil => simp [dictInsert]
  | cons p rest ih =>
    rw [List.map_cons, List.nodup_cons] at h
    by_cases hk : k = p.1
    · subst hk
      simpa [dictInsert, List.nodup_cons] using h
    · rw [dictInsert, if_neg hk, List.map_cons, List.nodup_cons]
      refine ⟨?_, ih h.2⟩
      rw [mem_keys_dictInsert]
      rintro (hc | hc)
      · exact hk hc.symm
      · exact h.1 hc

theorem nodup_keys_mergeStep (m : List (ℤ × Fest)) (kv : ℤ × Fest)
    (h : (m.map Prod.fst).Nodup) : ((mergeStep m kv).map Prod.fst).Nodup := by
  unfold mergeStep
  cases lookupD kv.1 m with
  | none => exact nodup_keys_dictInsert _ _ _ h
  | some c =>
    dsimp only
    by_cases hlen : c.description.length < kv.2.description.length
    · rw [if_pos hlen]
      exact nodup_keys_dictInsert _ _ _ h
    · rw [if_neg hlen]
      exact h

theorem nodup_keys_foldl_mergeStep (L : List (ℤ × Fest))
    (acc : List (ℤ × Fest)) (h : (acc.map Prod.fst).Nodup) :
    ((L.foldl mergeStep acc).map Prod.fst).Nodup := by
  induction L generalizing acc with
  | nil => exact h
  | cons kv L ih =>
    rw [List.foldl_cons]
    exact ih _ (nodup_keys_mergeStep _ _ h)

/-- C5 (amended): across the successive records seen for a date key during
the cross-feed merge, the record kept is the left fold of the
keep-only-if-strictly-longer combine `pick` — the longest description wins
and the first-seen record wins ties — and the merged dict has exactly one
record per date; within a single feed, however, `parse_ics_content`
overwrites unconditionally, so the last event seen for a date wins there
regardless of description length. -/
theorem dedup_longest_first_seen :
    (∀ (sources : List (List (ℤ × Fest))) (k : ℤ),
      lookupD k (merge_all_festivals sources) = pickFold none (occsOf k sources)) ∧
    (∀ cur new : Fest,
      cur.description.length = new.description.length → pick cur new = cur) ∧
    (∀ cur new : Fest,
      cur.description.length < new.description.length → pick cur new = new) ∧
    (∀ sources : List (List (ℤ × Fest)),
      ((merge_all_festivals sources).map Prod.fst).Nodup) ∧
    (∀ (events : List IcsEvent) (k : ℤ),
      lookupD k (parse_ics_content events) =
        lastFold none
          (((events.filterMap eventRecord).filter (fun kv => kv.1 == k)).map
            Prod.snd)) := by
  refine ⟨?_, ?_, ?_, ?_, ?_⟩
  · intro sources k
    have h1 : merge_all_festivals sources =
        (sources.foldr (· ++ ·) []).foldl mergeStep [] :=
      foldl_mergeSource_eq sources []
    rw [h1, lookupD_foldl_mergeStep]
    rfl
  · intro cur new h
    rw [pick, if_neg (by rw [h]; exact lt_irrefl _)]
  · intro cur new h
    rw [pick, if_pos h]
  · intro sources
    have h1 : merge_all_festivals sources =
        (sources.foldr (· ++ ·) []).foldl mergeStep [] :=
      foldl_mergeSource_eq sources []
    rw [h1]
    exact nodup_keys_foldl_mergeStep _ _ (by simp)
  · intro events k
    exact lookupD_foldl_parseStep events [] k

/-- Witness for C5: on equal description lengths `pick` keeps the first-seen
record, and on a strictly longer incoming description it takes the new one. -/
theorem dedup_longest_first_seen_witness :
    pick ⟨"A", 0, "xx"⟩ ⟨"B", 0, "yy"⟩ = ⟨"A", 0, "xx"⟩ ∧
    pick ⟨"A", 0, "x"⟩ ⟨"B", 0, "yy"⟩ = ⟨"B", 0, "yy"⟩ :=
  ⟨dedup_longest_first_seen.2.1 _ _ (by decide),
   dedup_longest_first_seen.2.2.1 _ _ (by decide)⟩

/-- Counterexample for C5 as stated: two events of the SAME feed share date
0; the first has the longer description ("Festival of lights", length 18),
the second an empty one, yet the parsed feed keeps the second record — the
longer-description rule does not hold within a single feed. -/
theorem parse_last_wins_cex :
    lookupD 0 (parse_ics_content
      [ ⟨"Diwali", some 0, "Festival of lights"⟩
      , ⟨"Diwali", some 0, ""⟩ ]) = some ⟨"Diwali", 0, ""⟩ ∧
    ("" : String).length < ("Festival of lights" : String).length := by
  constructor
  · decide
  · decide

/-! ### TimeSeriesAggregator: the two `analysis.py` variants

The repository carries two near-duplicate analysis modules:
`src/analysis.py` (namespace `SrcAnalysis` below) and
`src/modules/analysis.py` (namespace `ModAnalysis`).  A call dataset enters
as its relevant columns: the `hour` column for the by-hour aggregation, and
`(date, hour)` resp. `(date, has_coords)` rows for the KPIs. -/

/-- `df.groupby(col).size().reset_index(name='count')`: sorted distinct keys
paired with their multiplicities. -/
def groupbySizeN (xs : List ℕ) : List (ℕ × ℕ) :=
  (distinctSorted xs).map (fun h => (h, xs.count h))

/-- `pd.Series.mode()[0]`: the most frequent value, smallest on ties
(pandas mode returns the tied maximizers sorted ascending). -/
def modeOf (xs : List ℕ) : Option ℕ :=
  (distinctSorted xs).foldl
    (fun best h =>
      match best with
      | none => some h
      | some b => if xs.count b < xs.count h then some h else best)
    none

/-- Python `f"{n:02d}"` for a non-negative hour. -/
def pad2 (n : ℕ) : String :=
  if n < 10 then "0" ++ toString n else toString n

namespace SrcAnalysis

/-- `src/analysis.py`, lines 10-17 (`agg_calls_by_hour`): groupby counts
left-merged onto the full hour range 0-23, missing counts filled with 0. -/
def agg_calls_by_hour (hours : List ℕ) : List (ℕ × ℕ) :=
  (List.range 24).map (fun h => (h, (lookupD h (groupbySizeN hours)).getD 0))

/-- The KPI dict of `src/analysis.py`, lines 26-41 (`compute_kpis`). -/
structure KpisT where
  total_calls : ℕ
  avg_per_day : Option ℚ
  with_coords_pct : Option ℚ
  deriving DecidableEq, Repr

/-- `src/analysis.py`, lines 26-41: `days = (date.max() - date.min()).days +
1; avg = total / max(days, 1)`, rounded to 2 decimals; the `except` branch
(empty date column) yields `None`.  Rows are `(date, has_coords)`. -/
def compute_kpis (rows : List (ℤ × Bool)) : KpisT :=
  { total_calls := rows.length
  , avg_per_day :=
      match rows.map Prod.fst with
      | [] => none
      | d :: ds =>
        some (pythonRound2 ((rows.length : ℚ) /
          ((max ((ds.foldl max d - ds.foldl min d) + 1) 1 : ℤ) : ℚ)))
  , with_coords_pct :=
      if rows.isEmpty then none
      else
        some (pythonRound2
          (((rows.filter Prod.snd).length : ℚ) / (rows.length : ℚ) * 100)) }

end SrcAnalysis

namespace ModAnalysis

/-- `src/modules/analysis.py`, lines 10-14 (`agg_calls_by_hour`): a bare
groupby — only the hours present in the data appear, no gap filling. -/
def agg_calls_by_hour (hours : List ℕ) : List (ℕ × ℕ) :=
  groupbySizeN hours

/-- The KPI dict of `src/modules/analysis.py`, lines 22-51. -/
structure KpisM where
  total_calls : ℕ
  avg_per_day : ℤ
  peak_hour : String
  deriving DecidableEq, Repr

/-- `src/modules/analysis.py`, lines 22-51 (`compute_kpis`):
`days_in_range = date.nunique(); avg = round(total / days_in_range)`; the
peak hour label is built from the mode of the hour column.  Rows are
`(date, hour)`. -/
def compute_kpis (rows : List (ℤ × ℕ)) : KpisM :=
  if rows.isEmpty then ⟨0, 0, "N/A"⟩
  else
    { total_calls := rows.length
    , avg_per_day :=
        if 0 < (distinctSorted (rows.map Prod.fst)).length then
          pythonRound ((rows.length : ℚ) /
            ((distinctSorted (rows.map Prod.fst)).length : ℚ))
        else 0
    , peak_hour :=
        match modeOf (rows.map Prod.snd) with
        | some h => pad2 h ++ ":00 - " ++ pad2 (h + 1) ++ ":00"
        | none => "N/A" }

end ModAnalysis

theorem lookupD_keyed_map {κ β : Type} [DecidableEq κ] (f : κ → β)
    (l : List κ) (k : κ) :
    lookupD k (l.map (fun x => (x, f x))) =
      if k ∈ l then some (f k) else none := by
  induction l with
  | nil => simp [lookupD]
  | cons x l ih =>
    by_cases h : k = x
    · subst h
      simp [lookupD]
    · simp [lookupD, h, ih]

theorem lookupD_groupbySizeN_getD (hours : List ℕ) (h : ℕ) :
    (lookupD h (groupbySizeN hours)).getD 0 = hours.count h := by
  unfold groupbySizeN
  rw [lookupD_keyed_map]
  by_cases hm : h ∈ distinctSorted hours
  · rw [if_pos hm]
    rfl
  · rw [if_neg hm]
    have hnot : h ∉ hours := fun hh => hm ((mem_distinctSorted hours h).mpr hh)
    simp [List.count_eq_zero.mpr hnot]

/-- C7 (amended): the `src/analysis.py` by-hour aggregation always returns
exactly 24 entries, keyed 0-23 in order, each carrying the dataset's count
for that hour (0 when the hour is absent); the `src/modules/analysis.py`
variant instead returns one entry per distinct hour actually present. -/
theorem by_hour_gapfill_variants :
    (∀ hours : List ℕ,
      (SrcAnalysis.agg_calls_by_hour hours).length = 24 ∧
      (SrcAnalysis.agg_calls_by_hour hours).map Prod.fst = List.range 24 ∧
      (∀ p ∈ SrcAnalysis.agg_calls_by_hour hours, p.2 = hours.count p.1)) ∧
    (∀ hours : List ℕ,
      (ModAnalysis.agg_calls_by_hour hours).map Prod.fst =
        distinctSorted hours) := by
  constructor
  · intro hours
    refine ⟨?_, ?_, ?_⟩
    · rw [SrcAnalysis.agg_calls_by_hour, List.length_map, List.length_range]
    · rw [SrcAnalysis.agg_calls_by_hour, List.map_map,
        show (Prod.fst ∘ fun h => (h, (lookupD h (groupbySizeN hours)).getD 0)) =
          id from rfl, List.map_id]
    · intro p hp
      rw [SrcAnalysis.agg_calls_by_hour, List.mem_map] at hp
      obtain ⟨h, _, rfl⟩ := hp
      exact lookupD_groupbySizeN_getD hours h
  · intro hours
    rw [ModAnalysis.agg_calls_by_hour, groupbySizeN, List.map_map,
      show (Prod.fst ∘ fun h => (h, hours.count h)) = id from rfl, List.map_id]

/-- Witness for C7: on the dataset with calls at hours 5 and 20 only, the
gap-filled aggregation contains the entry (5, 1), whose count is the
dataset's count of hour 5. -/
theorem by_hour_gapfill_variants_witness :
    ((5 : ℕ), (1 : ℕ)) ∈ SrcAnalysis.agg_calls_by_hour [5, 20] ∧
    (1 : ℕ) = ([5, 20] : List ℕ).count 5 :=
  ⟨by decide, (by_hour_gapfill_variants.1 [5, 20]).2.2 (5, 1) (by decide)⟩

/-- Counterexample for C7 as stated: the `src/modules/analysis.py` by-hour
aggregation on a dataset with calls only at hours 5 and 20 returns 2
entries, not 24. -/
theorem by_hour_no_gapfill_cex :
    (ModAnalysis.agg_calls_by_hour [5, 20]).length = 2 ∧
    (ModAnalysis.agg_calls_by_hour [5, 20]).length ≠ 24 := by
  constructor
  · decide
  · decide

/-- C9 (amended): for a non-empty dataset, the `src/modules/analysis.py` KPI
average-per-day is the total divided by the number of distinct calendar days
actually present, rounded to the nearest integer by Python `round`; the
`src/analysis.py` variant instead divides by the calendar span between the
earliest and latest date (inclusive), rounded to 2 decimals. -/
theorem avg_per_day_variants :
    (∀ rows : List (ℤ × ℕ), rows ≠ [] →
      (ModAnalysis.compute_kpis rows).avg_per_day =
        pythonRound ((rows.length : ℚ) /
          ((distinctSorted (rows.map Prod.fst)).length : ℚ))) ∧
    (∀ (rows : List (ℤ × Bool)) (d : ℤ) (ds : List ℤ),
      rows.map Prod.fst = d :: ds →
      (SrcAnalysis.compute_kpis rows).avg_per_day =
        some (pythonRound2 ((rows.length : ℚ) /
          ((max ((ds.foldl max d - ds.foldl min d) + 1) 1 : ℤ) : ℚ)))) := by
  constructor
  · intro rows hne
    cases rows with
    | nil => exact absurd rfl hne
    | cons r rs =>
      have h1 : distinctSorted ((r :: rs).map Prod.fst) ≠ [] :=
        distinctSorted_ne_nil _ (by simp)
      have h2 : 0 < (distinctSorted ((r :: rs).map Prod.fst)).length :=
        List.length_pos.mpr h1
      rw [ModAnalysis.compute_kpis, if_neg (by simp)]
      dsimp only
      rw [if_pos h2]
  · intro rows d ds h
    rw [SrcAnalysis.compute_kpis]
    dsimp only
    rw [h]

/-- Witness for C9: on 3 calls over two distinct days (0 and 9), both
characterizations hold at their concrete inputs. -/
theorem avg_per_day_variants_witness :
    (ModAnalysis.compute_kpis [((0 : ℤ), (1 : ℕ)), (0, 2), (9, 3)]).avg_per_day =
      pythonRound ((([((0 : ℤ), (1 : ℕ)), (0, 2), (9, 3)]).length : ℚ) /
        ((distinctSorted (([((0 : ℤ), (1 : ℕ)), (0, 2), (9, 3)]).map
          Prod.fst)).length : ℚ)) ∧
    (SrcAnalysis.compute_kpis [((0 : ℤ), true), (0, true), (9, true)]).avg_per_day =
      some (pythonRound2 ((([((0 : ℤ), true), (0, true), (9, true)]).length : ℚ) /
        ((max ((([(0 : ℤ), 9]).foldl max 0 - ([(0 : ℤ), 9]).foldl min 0) + 1) 1 : ℤ) : ℚ))) :=
  ⟨avg_per_day_variants.1 _ (by decide),
   avg_per_day_variants.2 [((0 : ℤ), true), (0, true), (9, true)] 0 [0, 9] (by decide)⟩

/-- Counterexample for C9 as stated: 3 calls on two distinct days (0 and 9).
The claim demands average-per-day 3/2; the `src/modules/analysis.py` KPI is
the rounded integer 2, and the `src/analysis.py` KPI is 3/10 (it divides by
the 10-day calendar span) — neither equals 3/2. -/
theorem avg_per_day_cex :
    (((ModAnalysis.compute_kpis [((0 : ℤ), (1 : ℕ)), (0, 2), (9, 3)]).avg_per_day : ℤ) : ℚ) ≠
      (3 : ℚ) / 2 ∧
    (SrcAnalysis.compute_kpis [((0 : ℤ), true), (0, true), (9, true)]).avg_per_day ≠
      some ((3 : ℚ) / 2) := by
  have hm : (ModAnalysis.compute_kpis
      [((0 : ℤ), (1 : ℕ)), (0, 2), (9, 3)]).avg_per_day = 2 := by
    have hd : distinctSorted (([((0 : ℤ), (1 : ℕ)), (0, 2), (9, 3)]).map
        Prod.fst) = [0, 9] := by decide
    rw [ModAnalysis.compute_kpis, if_neg (by decide)]
    dsimp only
    rw [hd]
    simp only [pythonRound]
    norm_num
  have hs : (SrcAnalysis.compute_kpis
      [((0 : ℤ), true), (0, true), (9, true)]).avg_per_day =
        some ((3 : ℚ) / 10) := by
    rw [SrcAnalysis.compute_kpis]
    dsimp only
    simp only [pythonRound2, pythonRound]
    norm_num
  constructor
  · rw [hm]
    norm_num
  · rw [hs]
    intro hc
    have := Option.some.inj hc
    norm_num at this

/-! ### `filter_significant_festivals` (`modules/festivals_utils.py`)

The call dataframe enters as rows of (date value, category).  The date
column's values are modelled by `DateVal`: `raw d` is a value (e.g. a string)
denoting calendar day `d` that `pd.to_datetime` would parse, `dt d` is an
already-converted datetime value for day `d`.  Line 27
(`df['date'] = pd.to_datetime(df['date'])`) assigns the converted column back
onto the caller's dataframe, which the state-passing result records. -/

inductive DateVal
  | raw (d : ℤ)
  | dt (d : ℤ)
  deriving DecidableEq, Repr

structure Row where
  date : DateVal
  category : String
  deriving DecidableEq, Repr

/-- `pd.to_datetime` on one date value (parses, preserving the denoted day). -/
def to_datetime : DateVal → DateVal
  | .raw d => .dt d
  | .dt d => .dt d

/-- The calendar day a date value denotes. -/
def dtOf : DateVal → ℤ
  | .raw d => d
  | .dt d => d

/-- One row after the in-place `to_datetime` conversion of the date column. -/
def retypeRow (r : Row) : Row :=
  { r with date := to_datetime r.date }

/-- The (day, category) view of the dataframe the computation works on,
after the date column conversion. -/
def rowsOf (df : List Row) : List (ℤ × String) :=
  (df.map retypeRow).map (fun r => (dtOf r.date, r.category))

/-- Line 30: case-insensitive category filter
(`df['category'].str.lower() == category.lower()`). -/
def catRows (rows : List (ℤ × String)) (category : String) :
    List (ℤ × String) :=
  rows.filter (fun r => (r.2.data.map charLower) == (category.data.map charLower))

/-- `pd.date_range(fs, fe, freq='D')`: the days from `fs` to `fe` inclusive
(empty when `fs > fe`). -/
def dateRangeD (fs fe : ℤ) : List ℤ :=
  if fs ≤ fe then (List.range (fe - fs + 1).toNat).map (fun i => fs + i) else []

/-- `groupby('date').size()` over integer days. -/
def groupbySizeZ (xs : List ℤ) : List (ℤ × ℕ) :=
  (distinctSorted xs).map (fun d => (d, xs.count d))

/-- Line 50: `groupby('date').size().mean()` of the non-festival rows;
`none` models the NaN mean of an empty selection (`pd.isna`). -/
def meanGroupSizes (xs : List ℤ) : Option ℚ :=
  match distinctSorted xs with
  | [] => none
  | d :: ds => some ((daySum xs (d :: ds) : ℚ) / (((d :: ds).length : ℕ) : ℚ))

/-- One entry of `festival_crime_stats` (lines 56-62). -/
structure FestStat where
  name : String
  max_day : ℤ
  max_count : ℕ
  baseline_avg : Option ℚ
  max_pct : ℚ
  deriving DecidableEq, Repr

/-- Lines 37-62, one festival `(name, fs, fe)`: rows of the category falling
on festival days; `continue` (here `none`) when there are none — the
groupby of `df_fest` is empty exactly when `df_fest` is.  `max_day` is
`idxmax`: the first (earliest, since the groupby index is ascending) day
attaining the maximum count. -/
def festStatOf (df_cat : List (ℤ × String)) (nf : String × ℤ × ℤ) :
    Option FestStat :=
  match groupbySizeZ ((df_cat.filter
      (fun r => (dateRangeD nf.2.1 nf.2.2).contains r.1)).map Prod.fst) with
  | [] => none
  | dc :: dcs =>
    some { name := nf.1
         , max_day :=
             (((dc :: dcs).find?
               (fun p => p.2 == (dcs.map Prod.snd).foldl max dc.2)).map
                 Prod.fst).getD dc.1
         , max_count := (dcs.map Prod.snd).foldl max dc.2
         , baseline_avg :=
             meanGroupSizes ((df_cat.filter
               (fun r => !((dateRangeD nf.2.1 nf.2.2).contains r.1))).map
                 Prod.fst)
         , max_pct :=
             match meanGroupSizes ((df_cat.filter
               (fun r => !((dateRangeD nf.2.1 nf.2.2).contains r.1))).map
                 Prod.fst) with
             | none => 100
             | some b =>
               if b = 0 then 100
               else (((dcs.map Prod.snd).foldl max dc.2 : ℚ) - b) / b * 100 }

/-- Lines 23-62: the unsorted `festival_crime_stats` list ([] when the
category has no rows at all, line 32-33). -/
def fsfStats (fests : List (String × ℤ × ℤ)) (rows : List (ℤ × String))
    (category : String) : List FestStat :=
  if (catRows rows category).isEmpty then []
  else fests.filterMap (festStatOf (catRows rows category))

/-- Stable descending insertion by `max_count`: an element moves past the
head only while the head's count is strictly larger, so equal counts keep
their original relative order — the behaviour of Python's stable
`sorted(..., key=lambda x: x['max_count'], reverse=True)` (line 66). -/
def insertStat (x : FestStat) : List FestStat → List FestStat
  | [] => [x]
  | y :: ys =>
    if x.max_count < y.max_count then y :: insertStat x ys else x :: y :: ys

/-- Lines 66-69: sort `festival_crime_stats` descending by `max_count`. -/
def sortByMaxDesc (l : List FestStat) : List FestStat :=
  l.foldr insertStat []

/-- `filter_significant_festivals(festivals_in_range, df, category, top_n)`,
with the caller's dataframe threaded through: the result list and the state
of `df` after the call.  Lines 23-24 return `[]` before touching `df`; on any
other path line 27 has already replaced the caller's date column. -/
def filter_significant_festivals (fests : List (String × ℤ × ℤ))
    (df : List Row) (category : String) (top_n : ℕ) :
    List FestStat × List Row :=
  if df.isEmpty || fests.isEmpty then ([], df)
  else
    ((sortByMaxDesc (fsfStats fests (rowsOf df) category)).take top_n,
     df.map retypeRow)

theorem mem_insertStat (x a : FestStat) (l : List FestStat) :
    a ∈ insertStat x l ↔ a = x ∨ a ∈ l := by
  induction l with
  | nil => simp [insertStat]
  | cons y ys ih =>
    simp only [insertStat]
    split
    · simp only [List.mem_cons, ih]
      tauto
    · simp only [List.mem_cons]

theorem pairwise_insertStat (x : FestStat) (s : List FestStat)
    (hs : s.Pairwise (fun a b => b.max_count ≤ a.max_count)) :
    (insertStat x s).Pairwise (fun a b => b.max_count ≤ a.max_count) := by
  induction s with
  | nil => simp [insertStat]
  | cons y ys ih =>
    rw [List.pairwise_cons] at hs
    simp only [insertStat]
    split
    · next hlt =>
      rw [List.pairwise_cons]
      constructor
      · intro b hb
        rw [mem_insertStat] at hb
        rcases hb with rfl | hb
        · exact le_of_lt hlt
        · exact hs.1 b hb
      · exact ih hs.2
    · next hge =>
      rw [List.pairwise_cons]
      constructor
      · intro b hb
        rcases List.mem_cons.mp hb with rfl | hb
        · exact le_of_not_lt hge
        · exact le_trans (hs.1 b hb) (le_of_not_lt hge)
      · exact List.Pairwise.cons hs.1 hs.2

theorem pairwise_sortByMaxDesc (l : List FestStat) :
    (sortByMaxDesc l).Pairwise (fun a b => b.max_count ≤ a.max_count) := by
  induction l with
  | nil => exact List.Pairwise.nil
  | cons x l ih => exact pairwise_insertStat x _ ih

theorem filter_insertStat (c : ℕ) (x : FestStat) (s : List FestStat) :
    (insertStat x s).filter (fun t => t.max_count == c) =
      if x.max_count = c then
        x :: s.filter (fun t => t.max_count == c)
      else s.filter (fun t => t.max_count == c) := by
  induction s with
  | nil =>
    by_cases hx : x.max_count = c
    · simp [insertStat, List.filter_cons, hx]
    · simp [insertStat, List.filter_cons, hx]
  | cons y ys ih =>
    simp only [insertStat]
    split
    · next hlt =>
      by_cases hx : x.max_count = c
      · have hy : ¬(y.max_count = c) := by
          subst hx
          omega
        rw [if_pos hx, List.filter_cons, if_neg (by simpa using hy), ih,
          if_pos hx, List.filter_cons, if_neg (by simpa using hy)]
      · rw [if_neg hx, List.filter_cons, ih, if_neg hx, List.filter_cons]
    · next hge =>
      by_cases hx : x.max_count = c
      · rw [if_pos hx, List.filter_cons, if_pos (by simpa using hx)]
      · rw [if_neg hx, List.filter_cons, if_neg (by simpa using hx)]

theorem filter_sortByMaxDesc (c : ℕ) (l : List FestStat) :
    (sortByMaxDesc l).filter (fun t => t.max_count == c) =
      l.filter (fun t => t.max_count == c) := by
  induction l with
  | nil => rfl
  | cons x l ih =>
    show (insertStat x (sortByMaxDesc l)).filter (fun t => t.max_count == c) = _
    rw [filter_insertStat, List.filter_cons]
    by_cases hx : x.max_count = c
    · rw [if_pos hx, if_pos (by simpa using hx), ih]
    · rw [if_neg hx, if_neg (by simpa using hx), ih]

/-- C4 (amended): when the dataset has no row whose category matches the
requested one case-insensitively, `filter_significant_festivals` returns the
empty list — a soft empty result, not an `EmptyCategoryError` (no such
exception exists anywhere in the code). -/
theorem empty_category_returns_nil (fests : List (String × ℤ × ℤ))
    (df : List Row) (category : String) (top_n : ℕ)
    (h : ∀ r ∈ df, r.category.data.map charLower ≠ category.data.map charLower) :
    (filter_significant_festivals fests df category top_n).1 = [] := by
  unfold filter_significant_festivals
  by_cases he : (df.isEmpty || fests.isEmpty) = true
  · rw [if_pos he]
  · rw [if_neg he]
    have hcat : catRows (rowsOf df) category = [] := by
      rw [catRows, List.filter_eq_nil_iff]
      intro r hr
      rw [rowsOf, List.map_map, List.mem_map] at hr
      obtain ⟨r0, hr0, rfl⟩ := hr
      have : (retypeRow r0).category = r0.category := rfl
      simp only [Function.comp_apply, this]
      simpa using h r0 hr0
    rw [fsfStats, hcat]
    simp [sortByMaxDesc]

/-- Witness for C4 (amended): a dataset containing only a "medical" row
queried for "crime" yields the empty list. -/
theorem empty_category_returns_nil_witness :
    (filter_significant_festivals [("Diwali", 0, 0)]
      [⟨DateVal.raw 0, "medical"⟩] "crime" 10).1 = [] :=
  empty_category_returns_nil [("Diwali", 0, 0)]
    [⟨DateVal.raw 0, "medical"⟩] "crime" 10 (by decide)

/-- Counterexample for C4 as stated: for a dataset with zero rows matching
the category, the function evaluates to a perfectly ordinary value — the
empty list paired with the retyped dataframe — instead of raising any
`EmptyCategoryError` (the embedding is total; the code path is
`if df_cat.empty: return []`). -/
theorem empty_category_silent_nil_cex :
    filter_significant_festivals [("Diwali", 0, 0)]
        [⟨DateVal.raw 0, "medical"⟩] "crime" 10 =
      ([], [⟨DateVal.dt 0, "medical"⟩]) := by
  decide

/-- C8 (amended): the top-N selection is ordered descending by the maximum
single-day call count and returns at most `top_n` entries; ties in
`max_count` keep the relative order in which the festivals were assessed
(Python's sort is stable) — they are NOT re-ordered by date. -/
theorem topn_order (fests : List (String × ℤ × ℤ)) (df : List Row)
    (category : String) (top_n : ℕ) :
    ((filter_significant_festivals fests df category top_n).1).Pairwise
      (fun a b => b.max_count ≤ a.max_count) ∧
    ((filter_significant_festivals fests df category top_n).1).length ≤ top_n ∧
    (∀ c : ℕ,
      (sortByMaxDesc (fsfStats fests (rowsOf df) category)).filter
          (fun t => t.max_count == c) =
        (fsfStats fests (rowsOf df) category).filter
          (fun t => t.max_count == c)) := by
  refine ⟨?_, ?_, fun c => filter_sortByMaxDesc c _⟩
  · unfold filter_significant_festivals
    by_cases he : (df.isEmpty || fests.isEmpty) = true
    · rw [if_pos he]
      exact List.Pairwise.nil
    · rw [if_neg he]
      exact (pairwise_sortByMaxDesc _).sublist (List.take_sublist _ _)
  · unfold filter_significant_festivals
    by_cases he : (df.isEmpty || fests.isEmpty) = true
    · rw [if_pos he]
      exact Nat.zero_le _
    · rw [if_neg he]
      rw [List.length_take]
      exact min_le_left _ _

/-- Counterexample for C8 as stated: two festivals tie at `max_count = 1`;
the input lists festival "B" (day 10) before festival "A" (day 0), and the
output keeps that order — days [10, 0], not the date-ascending [0, 10] the
claim requires. -/
theorem topn_tie_order_cex :
    ((filter_significant_festivals [("B", 10, 10), ("A", 0, 0)]
        [⟨DateVal.raw 10, "crime"⟩, ⟨DateVal.raw 0, "crime"⟩] "crime" 10).1.map
      (fun s => s.max_day)) = [10, 0] ∧
    ([10, 0] : List ℤ) ≠ [0, 10] := by
  constructor
  · decide
  · decide

/-- C10 (amended): the crime-impact classifier copies the call data before
adding its working column, so the caller's dataset is returned unchanged;
`filter_significant_festivals`, however, re-assigns the `date` column of the
caller's dataframe in place (`df['date'] = pd.to_datetime(df['date'])`)
whenever it gets past its emptiness guards, so the caller observes the
retyped column. -/
theorem frame_effects :
    (∀ (festivals : List (ℤ × Fest)) (dates : List ℤ) (θ m : ℚ),
      (filter_festivals_by_crime_impact_st festivals dates θ m).2 = dates) ∧
    (∀ (fests : List (String × ℤ × ℤ)) (df : List Row) (category : String)
      (top_n : ℕ), df ≠ [] → fests ≠ [] →
      (filter_significant_festivals fests df category top_n).2 =
        df.map retypeRow) := by
  constructor
  · intro festivals dates θ m
    rfl
  · intro fests df category top_n hdf hfe
    cases df with
    | nil => exact absurd rfl hdf
    | cons r rs =>
      cases fests with
      | nil => exact absurd rfl hfe
      | cons f fs => rfl

/-- Witness for C10 (amended): a one-row dataframe with an unparsed date
comes back with its date column converted. -/
theorem frame_effects_witness :
    (filter_significant_festivals [("F", 0, 0)] [⟨DateVal.raw 0, "crime"⟩]
        "crime" 1).2 =
      ([⟨DateVal.raw 0, "crime"⟩] : List Row).map retypeRow :=
  frame_effects.2 [("F", 0, 0)] [⟨DateVal.raw 0, "crime"⟩] "crime" 1
    (by decide) (by decide)

/-- Counterexample for C10 as stated: after the call, the caller's dataframe
is NOT the one passed in — its date column has been retyped in place from the
raw value to a datetime value. -/
theorem frame_mutation_cex :
    (filter_significant_festivals [("F", 0, 0)] [⟨DateVal.raw 0, "crime"⟩]
        "crime" 1).2 ≠ [⟨DateVal.raw 0, "crime"⟩] := by
  decide
